/-
  Verification development for the HoloPy Mie scattering engine.

  The file embeds, in Lean 4, the parts of the repository that the
  checked properties speak about:

  * `ensure_3d` from `holopy/core/tools/utilities.py` (directly from the
    source);
  * a model of the Mie scattering pipeline (scatterer taxonomy,
    compatibility and feasibility guards, coherent superposition,
    hologram assembly, raster/flat schema handling, and the recursive
    layered-sphere coefficient algorithm), built from the specification
    because the engine module itself is not among the provided sources —
    only its test suite is.

  Numeric values are rationals; complex numbers are re/im pairs of
  rationals; the layered-sphere recursion is stated over an arbitrary
  field so that it covers the complex-valued computation of the source.
-/
import Mathlib

namespace HoloPy

/-! ## Core utilities: `ensure_3d` (from `holopy/core/tools/utilities.py`) -/

/-- Embedding of `utilities.ensure_3d`.  The source raises a generic
`Exception` with message `"\x7b0\x7d cannot be interpreted as a coordinate"`
when the input has neither 2 nor 3 components; with 2 components it appends
`z = 0`; with 3 it returns the coordinate unchanged. -/
def ensure_3d (x : List ℚ) : Except String (List ℚ) :=
  if ¬ (x.length = 2 ∨ x.length = 3) then
    Except.error "\x7b0\x7d cannot be interpreted as a coordinate"
  else if x.length = 2 then
    Except.ok (x ++ [0])
  else
    Except.ok x

/-! ## Complex scalars and vector fields

Modelled from the spec (§3): a scattering result is "a complex 3-component
field per sample point (Ex, Ey, Ez)".  A complex scalar is a pair
(re, im) of rationals; a field sample is a triple of complex scalars. -/

/-- A complex scalar: real and imaginary part. -/
abbrev CQ := ℚ × ℚ

/-- A complex 3-component field sample (Ex, Ey, Ez). -/
abbrev F3 := CQ × CQ × CQ

/-- The zero field sample. -/
def F0 : F3 := ((0, 0), (0, 0), (0, 0))

/-- Squared modulus of a complex scalar. -/
def normSqC (e : CQ) : ℚ := e.1 ^ 2 + e.2 ^ 2

/-- Squared norm of a field sample: the intensity `|E|²`. -/
def fieldNormSq (E : F3) : ℚ := normSqC E.1 + normSqC E.2.1 + normSqC E.2.2

/-- Componentwise sum of two complex scalars. -/
def addC (a b : CQ) : CQ := (a.1 + b.1, a.2 + b.2)

/-- Coherent (componentwise complex) sum of two field samples.
Modelled from the spec (§4.3): composite fields are summed "coherently
(not intensities) at each sample point". -/
def addF3 (a b : F3) : F3 :=
  (addC a.1 b.1, addC a.2.1 b.2.1, addC a.2.2 b.2.2)

/-- Real part of `a * conj b` for complex scalars: the interference cross
term between two coherent field components. -/
def crossRe (a b : CQ) : ℚ := a.1 * b.1 + a.2 * b.2

/-- Total interference cross term between two field samples,
`Re ⟨E1, E2⟩` summed over the three vector components. -/
def crossF3 (A B : F3) : ℚ :=
  crossRe A.1 B.1 + crossRe A.2.1 B.2.1 + crossRe A.2.2 B.2.2

/-- Modelled from the spec (§4.4): hologram intensity at one sample point is
`|scattered_field + reference_field|²` with a unit-amplitude reference plane
wave along the polarization (x) axis. -/
def holoPoint (E : F3) : ℚ :=
  (1 + E.1.1) ^ 2 + E.1.2 ^ 2 + normSqC E.2.1 + normSqC E.2.2

/-- Modelled from the spec (§4.4): the hologram assembler applied to the
scattered field at every sample point of the schema. -/
def calcHoloField (Es : List F3) : List ℚ := Es.map holoPoint

/-- Modelled from the spec (§4.3): coherent superposition of two
per-sample-point field lists over the same schema. -/
def superpose (E1 E2 : List F3) : List F3 := List.zipWith addF3 E1 E2

/-! ## Scatterer taxonomy and the Mie engine guards -/

/-- A sample position in the lab frame. -/
abbrev Pos := ℚ × ℚ × ℚ

/-- Modelled from the spec (§3, §9): the closed tagged-variant set of
non-composite scatterers handled by the engine: `Sphere`, `LayeredSphere`
(per-layer indices and thicknesses) and `Ellipsoid`. -/
inductive BasicScatterer
  | sphere (n : CQ) (r : ℚ) (center : Pos)
  | layeredSphere (n : List CQ) (t : List ℚ) (center : Pos)
  | ellipsoid (n : CQ) (r : Pos) (center : Pos)
deriving DecidableEq

/-- Modelled from the spec (§3): a scatterer is either a basic scatterer or
a `Spheres` composite owning an ordered sequence of sub-scatterers. -/
inductive Scatterer
  | basic (b : BasicScatterer)
  | spheres (members : List BasicScatterer)
deriving DecidableEq

/-- The name of a scatterer variant, used in error messages. -/
def basicTypeName : BasicScatterer → String
  | .sphere .. => "Sphere"
  | .layeredSphere .. => "LayeredSphere"
  | .ellipsoid .. => "Ellipsoid"

/-- Modelled from the spec (§9): the capability query "is sphere-family".
The Mie theory evaluates exactly the sphere-family variants. -/
def sphereFamily : BasicScatterer → Bool
  | .sphere .. => true
  | .layeredSphere .. => true
  | .ellipsoid .. => false

/-- First member (if any) of a scatterer that the Mie theory cannot handle,
with its type name.  Modelled from the spec (§4.3): the incompatibility
check applies uniformly whether the scatterer is submitted directly or
nested in a composite. -/
def firstIncompatible : Scatterer → Option String
  | .basic b => if sphereFamily b then none else some (basicTypeName b)
  | .spheres ss =>
      ss.findSome?
        (fun b => if sphereFamily b then none else some (basicTypeName b))

/-- Modelled from the spec (§3): the illumination description. -/
structure Optics where
  wavelen : ℚ
  index : ℚ
  polarization : ℚ × ℚ
deriving DecidableEq

/-- The error taxonomy of the engine (spec §7). -/
inductive ScatteringError
  | theoryNotCompatibleError (msg : String)
  | unrealizableScatterer (msg : String)
deriving DecidableEq

/-- Outer radius of a basic scatterer: a sphere's radius, the summed layer
thicknesses of a layered sphere, the largest semi-axis of an ellipsoid. -/
def outerRadius : BasicScatterer → ℚ
  | .sphere _ r _ => r
  | .layeredSphere _ t _ => t.sum
  | .ellipsoid _ r _ => max r.1 (max r.2.1 r.2.2)

/-- Modelled from the spec (§4.1, §7): the feasibility guard rejects a
scatterer whose radius-to-wavelength ratio exceeds the configured ceiling,
i.e. whose radius exceeds `ceiling * wavelen`. -/
def oversized (ceiling : ℚ) (o : Optics) (b : BasicScatterer) : Bool :=
  decide (ceiling * o.wavelen < outerRadius b)

/-- The basic scatterers contained in a scatterer. -/
def members : Scatterer → List BasicScatterer
  | .basic b => [b]
  | .spheres ss => ss

/-- Coherent net field of a scatterer at one sample point, given the
per-scatterer raw-field evaluator `ev` (spec §4.2–§4.3): a composite's
field is the coherent sum of the member fields. -/
def netFieldAt (ev : BasicScatterer → Pos → F3) : Scatterer → Pos → F3
  | .basic b, p => ev b p
  | .spheres ss, p => ss.foldr (fun b acc => addF3 (ev b p) acc) F0

/-- Modelled from the spec (§4, §6, §7): `calc_field`.  The compatibility
check, then the feasibility guard, run before any field evaluation; on
failure the whole computation fails with no partial result. -/
def calcField (ev : BasicScatterer → Pos → F3) (ceiling : ℚ) (s : Scatterer)
    (o : Optics) (positions : List Pos) : Except ScatteringError (List F3) :=
  match firstIncompatible s with
  | some tn =>
      Except.error (ScatteringError.theoryNotCompatibleError
        ("Mie scattering theory cannot handle scatterers of type " ++ tn))
  | none =>
      if (members s).any (oversized ceiling o) then
        Except.error (ScatteringError.unrealizableScatterer
          "scatterer size is beyond the feasible computation envelope")
      else
        Except.ok (positions.map (netFieldAt ev s))

/-- Modelled from the spec (§6): `calc_intensity`, derived as `|field|²`. -/
def calcIntensity (ev : BasicScatterer → Pos → F3) (ceiling : ℚ)
    (s : Scatterer) (o : Optics) (positions : List Pos) :
    Except ScatteringError (List ℚ) :=
  (calcField ev ceiling s o positions).map (List.map fieldNormSq)

/-- Modelled from the spec (§4.4, §6): `calc_holo`, the hologram assembler
applied to the computed field. -/
def calcHolo (ev : BasicScatterer → Pos → F3) (ceiling : ℚ) (s : Scatterer)
    (o : Optics) (positions : List Pos) : Except ScatteringError (List ℚ) :=
  (calcField ev ceiling s o positions).map calcHoloField

/-! ## Raster schemas, flattening and subimaging -/

/-- Modelled from the spec (§4.4): evaluate the hologram over a raster
(image) schema given as a grid of sample positions, row by row. -/
def calcHoloGrid (ev : BasicScatterer → Pos → F3) (s : Scatterer)
    (grid : List (List Pos)) : List (List ℚ) :=
  grid.map (fun row => row.map (fun p => holoPoint (netFieldAt ev s p)))

/-- Modelled from the spec (§4.4): evaluate the hologram over a flat list
of sample positions. -/
def calcHoloFlat (ev : BasicScatterer → Pos → F3) (s : Scatterer)
    (ps : List Pos) : List ℚ :=
  ps.map (fun p => holoPoint (netFieldAt ev s p))

/-- Reshape a flat result back into the raster shape of a template grid:
successive rows take successive runs of the flat list. -/
def reshapeLike {α β : Type} : List (List α) → List β → List (List β)
  | [], _ => []
  | row :: rows, fl => fl.take row.length :: reshapeLike rows (fl.drop row.length)

/-- Modelled from the spec (§8): crop a raster at given pixel offsets,
keeping `nRows × nCols` pixels starting at `(rowOff, colOff)`. -/
def subimageGrid {α : Type} (rowOff nRows colOff nCols : ℕ)
    (g : List (List α)) : List (List α) :=
  ((g.drop rowOff).take nRows).map (fun row => (row.drop colOff).take nCols)

/-! ## Layered-sphere coefficient recursion

Modelled from the spec (§4.1): layered spheres use a recursive
boundary-matching formulation across layers (a recursion on ratios of
spherical Bessel/Hankel functions) producing the same (an, bn) shape as a
homogeneous sphere of equivalent outer radius.  The recursion is stated
over an arbitrary field `K` (the source computes with complex numbers).
`D1` and `D3` are the logarithmic derivatives of the regular and outgoing
Riccati–Bessel functions at the fixed multipole order, and `Q` the layer
ratio factor; they enter the recursion as abstract function parameters —
the claim's content is the algebra of the recursion, not their analytic
values. -/

variable {K : Type} [Field K]

/-- One generic layer-crossing of the recursion, given the step map; the
state is (previous index, previous boundary size, accumulated logarithmic
derivative), and the remaining layers are (index, boundary size) pairs
ordered outward. -/
def layerGo (step : K → K → K → K → K → K) :
    K → K → K → List (K × K) → K
  | _, _, h, [] => h
  | mp, xp, h, (m, x) :: rest => layerGo step m x (step mp xp m x h) rest

/-- Boundary-matching step for the electric (`an`-type) logarithmic
derivative `Ha`, crossing from the layer of index `mp` with outer boundary
`xp` into the layer of index `m` with outer boundary `x`. -/
def haStep (D1 D3 : K → K) (Q : K → K → K) (mp xp m x ha : K) : K :=
  ((m * ha - mp * D3 (m * xp)) * D1 (m * x)
      - Q (m * xp) (m * x) * (m * ha - mp * D1 (m * xp)) * D3 (m * x))
    / ((m * ha - mp * D3 (m * xp))
      - Q (m * xp) (m * x) * (m * ha - mp * D1 (m * xp)))

/-- Boundary-matching step for the magnetic (`bn`-type) logarithmic
derivative `Hb`; the index weights are swapped relative to `haStep`. -/
def hbStep (D1 D3 : K → K) (Q : K → K → K) (mp xp m x hb : K) : K :=
  ((mp * hb - m * D3 (m * xp)) * D1 (m * x)
      - Q (m * xp) (m * x) * (mp * hb - m * D1 (m * xp)) * D3 (m * x))
    / ((mp * hb - m * D3 (m * xp))
      - Q (m * xp) (m * x) * (mp * hb - m * D1 (m * xp)))

/-- `Ha` of a layered sphere: seeded at the innermost layer with the
homogeneous value `D1(m₁ x₁)`, then one boundary-matching step per layer
outward. -/
def haLayered (D1 D3 : K → K) (Q : K → K → K) : List (K × K) → K
  | [] => 0
  | (m, x) :: rest => layerGo (haStep D1 D3 Q) m x (D1 (m * x)) rest

/-- `Hb` of a layered sphere, the magnetic analogue of `haLayered`. -/
def hbLayered (D1 D3 : K → K) (Q : K → K → K) : List (K × K) → K
  | [] => 0
  | (m, x) :: rest => layerGo (hbStep D1 D3 Q) m x (D1 (m * x)) rest

/-- The outermost (index, boundary size) pair of a layer list. -/
def outerLayer (layers : List (K × K)) : K × K := layers.getLastD (1, 0)

/-- Mie coefficient `an` from the logarithmic derivative `Ha` at the outer
surface, with `psi`/`xi` the Riccati–Bessel functions of the fixed order
and `psiPrev`/`xiPrev` those of the previous order. -/
def anFromHa (psi psiPrev xi xiPrev : K → K) (nOrd m x ha : K) : K :=
  ((ha / m + nOrd / x) * psi x - psiPrev x)
    / ((ha / m + nOrd / x) * xi x - xiPrev x)

/-- Mie coefficient `bn` from the logarithmic derivative `Hb` at the outer
surface. -/
def bnFromHb (psi psiPrev xi xiPrev : K → K) (nOrd m x hb : K) : K :=
  ((hb * m + nOrd / x) * psi x - psiPrev x)
    / ((hb * m + nOrd / x) * xi x - xiPrev x)

/-- `an` of a layered sphere under a given layer partition. -/
def anLayered (D1 D3 psi psiPrev xi xiPrev : K → K) (Q : K → K → K)
    (nOrd : K) (layers : List (K × K)) : K :=
  anFromHa psi psiPrev xi xiPrev nOrd (outerLayer layers).1
    (outerLayer layers).2 (haLayered D1 D3 Q layers)

/-- `bn` of a layered sphere under a given layer partition. -/
def bnLayered (D1 D3 psi psiPrev xi xiPrev : K → K) (Q : K → K → K)
    (nOrd : K) (layers : List (K × K)) : K :=
  bnFromHb psi psiPrev xi xiPrev nOrd (outerLayer layers).1
    (outerLayer layers).2 (hbLayered D1 D3 Q layers)

/-- `an` of a homogeneous sphere of relative index `m` and size `r`: the
logarithmic derivative is directly `D1(m·r)`. -/
def anSphere (D1 psi psiPrev xi xiPrev : K → K) (nOrd m r : K) : K :=
  anFromHa psi psiPrev xi xiPrev nOrd m r (D1 (m * r))

/-- `bn` of a homogeneous sphere of relative index `m` and size `r`. -/
def bnSphere (D1 psi psiPrev xi xiPrev : K → K) (nOrd m r : K) : K :=
  bnFromHb psi psiPrev xi xiPrev nOrd m r (D1 (m * r))

/-- Modelled from the spec (§4.2, §4.4): downstream of the coefficients the
field evaluator and hologram assembler form one fixed per-sample-point map
`emit` of the (an, bn) pair; it is shared by the layered and homogeneous
computations ("the same schema and optics"). -/
def calcHoloFromCoeffs (emit : K → K → K → K) (an bn : K) (ps : List K) :
    List K :=
  ps.map (emit an bn)

/-- The field/hologram of a layered sphere over the sample points `ps`. -/
def calcHoloLayeredSphere (D1 D3 psi psiPrev xi xiPrev : K → K)
    (Q : K → K → K) (nOrd : K) (emit : K → K → K → K)
    (layers : List (K × K)) (ps : List K) : List K :=
  calcHoloFromCoeffs emit
    (anLayered D1 D3 psi psiPrev xi xiPrev Q nOrd layers)
    (bnLayered D1 D3 psi psiPrev xi xiPrev Q nOrd layers) ps

/-- The field/hologram of a homogeneous sphere over the sample points
`ps`. -/
def calcHoloHomogeneousSphere (D1 psi psiPrev xi xiPrev : K → K)
    (nOrd : K) (emit : K → K → K → K) (m r : K) (ps : List K) : List K :=
  calcHoloFromCoeffs emit (anSphere D1 psi psiPrev xi xiPrev nOrd m r)
    (bnSphere D1 psi psiPrev xi xiPrev nOrd m r) ps

/-! ## Claim theorems for `ensure_3d` -/

/-- Claim C9: `ensure_3d` rejects exactly the coordinates whose length is
neither 2 nor 3, raising the generic structural error, and raises for no
coordinate of length 2 or 3. -/
theorem ensure_3d_rejects_iff (x : List ℚ) :
    ensure_3d x = Except.error "\x7b0\x7d cannot be interpreted as a coordinate"
      ↔ (x.length ≠ 2 ∧ x.length ≠ 3) := by
  unfold ensure_3d
  by_cases h2 : x.length = 2
  · simp [h2]
  · by_cases h3 : x.length = 3
    · simp [h2, h3]
    · simp [h2, h3]

/-- Concrete instance of C9: a 4-component coordinate is rejected with the
generic structural error. -/
theorem ensure_3d_rejects_iff_witness :
    ensure_3d [1, 2, 3, 4]
      = Except.error "\x7b0\x7d cannot be interpreted as a coordinate" :=
  (ensure_3d_rejects_iff [1, 2, 3, 4]).mpr (by decide)

/-- Claim C10: on a 2-component coordinate `ensure_3d` appends `z = 0`; on a
3-component coordinate it returns the same three components unchanged. -/
theorem ensure_3d_pads_or_keeps (x : List ℚ) :
    (x.length = 2 → ensure_3d x = Except.ok (x ++ [0]))
      ∧ (x.length = 3 → ensure_3d x = Except.ok x) := by
  constructor
  · intro h2
    unfold ensure_3d
    simp [h2]
  · intro h3
    unfold ensure_3d
    simp [h3]

/-- Concrete instance of C10 at a 2-component and a 3-component input. -/
theorem ensure_3d_pads_or_keeps_witness :
    ensure_3d [5, 7] = Except.ok [5, 7, 0]
      ∧ ensure_3d [5, 7, 9] = Except.ok [5, 7, 9] :=
  ⟨(ensure_3d_pads_or_keeps [5, 7]).1 rfl,
   (ensure_3d_pads_or_keeps [5, 7, 9]).2 rfl⟩

/-! ## Superposition algebra: helper lemmas -/

/-- The superposed hologram deviates from `holo₁ + holo₂ − 1` exactly by the
interference cross term `2·Re⟨E1, E2⟩` at each sample point. -/
theorem holoPoint_addF3 (A B : F3) :
    holoPoint (addF3 A B) - (holoPoint A + holoPoint B - 1)
      = 2 * crossF3 A B := by
  simp only [holoPoint, addF3, addC, crossF3, crossRe, normSqC]
  ring

/-- Cauchy–Schwarz style bound: the cross term is dominated by the sum of the
two field intensities. -/
theorem abs_two_crossF3_le (A B : F3) :
    |2 * crossF3 A B| ≤ fieldNormSq A + fieldNormSq B := by
  rw [abs_le]
  constructor
  · simp only [crossF3, crossRe, fieldNormSq, normSqC]
    nlinarith [sq_nonneg (A.1.1 + B.1.1), sq_nonneg (A.1.2 + B.1.2),
               sq_nonneg (A.2.1.1 + B.2.1.1), sq_nonneg (A.2.1.2 + B.2.1.2),
               sq_nonneg (A.2.2.1 + B.2.2.1), sq_nonneg (A.2.2.2 + B.2.2.2)]
  · simp only [crossF3, crossRe, fieldNormSq, normSqC]
    nlinarith [sq_nonneg (A.1.1 - B.1.1), sq_nonneg (A.1.2 - B.1.2),
               sq_nonneg (A.2.1.1 - B.2.1.1), sq_nonneg (A.2.1.2 - B.2.1.2),
               sq_nonneg (A.2.2.1 - B.2.2.1), sq_nonneg (A.2.2.2 - B.2.2.2)]

/-- Evaluating the assembled hologram list at index `i` gives the hologram of
the `i`-th field sample. -/
theorem calcHoloField_getD (Es : List F3) :
    ∀ i : ℕ, i < Es.length →
      (calcHoloField Es).getD i 0 = holoPoint (Es.getD i F0) := by
  induction Es with
  | nil => intro i hi; simp at hi
  | cons E Es ih =>
      intro i hi
      cases i with
      | zero => rfl
      | succ j =>
          simp only [calcHoloField, List.map_cons, List.getD_cons_succ]
          exact ih j (by simpa using hi)

/-- The superposed field list at index `i` is the coherent sum of the two
`i`-th samples. -/
theorem superpose_getD (E1 : List F3) :
    ∀ (E2 : List F3) (i : ℕ), i < E1.length → i < E2.length →
      (superpose E1 E2).getD i F0
        = addF3 (E1.getD i F0) (E2.getD i F0) := by
  induction E1 with
  | nil => intro E2 i hi _; simp at hi
  | cons A E1 ih =>
      intro E2 i hi1 hi2
      cases E2 with
      | nil => simp at hi2
      | cons B E2 =>
          cases i with
          | zero => rfl
          | succ j =>
              simp only [superpose, List.zipWith_cons_cons, List.getD_cons_succ]
              exact ih E2 j (by simpa using hi1) (by simpa using hi2)

/-- An in-bounds `getD` access returns a member of the list. -/
theorem getD_mem_of_lt (l : List F3) :
    ∀ i : ℕ, i < l.length → l.getD i F0 ∈ l := by
  induction l with
  | nil => intro i hi; simp at hi
  | cons A l ih =>
      intro i hi
      cases i with
      | zero => exact List.mem_cons_self A l
      | succ j =>
          simp only [List.getD_cons_succ]
          exact List.mem_cons_of_mem A (ih j (by simpa using hi))

/-! ## Claim theorems: coherent superposition -/

/-- Claim C2: for two point-like scatterers (every per-point field intensity
at most `5·10⁻¹³`, as holds for spheres of radius 0.01·wavelength, well
separated), the superposed hologram agrees with `holo₁ + holo₂ − 1` within
`10⁻¹²` at every sample point. -/
theorem pointlike_superposition_linear (E1 E2 : List F3) (i : ℕ)
    (hb1 : ∀ E ∈ E1, fieldNormSq E ≤ 1 / 2000000000000)
    (hb2 : ∀ E ∈ E2, fieldNormSq E ≤ 1 / 2000000000000)
    (hi1 : i < E1.length) (hi2 : i < E2.length) :
    |(calcHoloField (superpose E1 E2)).getD i 0
        - ((calcHoloField E1).getD i 0 + (calcHoloField E2).getD i 0 - 1)|
      ≤ 1 / 1000000000000 := by
  have hlen : i < (superpose E1 E2).length := by
    simp only [superpose, List.length_zipWith]
    exact lt_min hi1 hi2
  rw [calcHoloField_getD _ i hlen, calcHoloField_getD _ i hi1,
      calcHoloField_getD _ i hi2, superpose_getD E1 E2 i hi1 hi2,
      holoPoint_addF3]
  calc |2 * crossF3 (E1.getD i F0) (E2.getD i F0)|
      ≤ fieldNormSq (E1.getD i F0) + fieldNormSq (E2.getD i F0) :=
        abs_two_crossF3_le _ _
    _ ≤ 1 / 2000000000000 + 1 / 2000000000000 :=
        add_le_add (hb1 _ (getD_mem_of_lt E1 i hi1))
          (hb2 _ (getD_mem_of_lt E2 i hi2))
    _ ≤ 1 / 1000000000000 := by norm_num

/-- Concrete instance of C2: two weak single-sample fields superpose
linearly within `10⁻¹²`. -/
theorem pointlike_superposition_linear_witness :
    |(calcHoloField (superpose [((1/2000000, 0), (0, 0), (0, 0))]
          [((0, 1/2000000), (0, 0), (0, 0))])).getD 0 0
        - ((calcHoloField [((1/2000000, 0), (0, 0), (0, 0))]).getD 0 0
            + (calcHoloField [((0, 1/2000000), (0, 0), (0, 0))]).getD 0 0 - 1)|
      ≤ 1 / 1000000000000 :=
  pointlike_superposition_linear
    [((1/2000000, 0), (0, 0), (0, 0))] [((0, 1/2000000), (0, 0), (0, 0))] 0
    (by norm_num [fieldNormSq, normSqC]) (by norm_num [fieldNormSq, normSqC])
    (by decide) (by decide)

/-- Claim C7: when the interference cross term between the two scattered
fields exceeds the tolerance at some sample point (as for wavelength-scale
spheres, whose scattered intensity is not negligible), the superposed
hologram differs from `holo₁ + holo₂ − 1` by more than that tolerance at
some sample point. -/
theorem wavelength_scale_nonlinear (E1 E2 : List F3) (tol : ℚ)
    (h : ∃ i, i < E1.length ∧ i < E2.length ∧
        tol < |2 * crossF3 (E1.getD i F0) (E2.getD i F0)|) :
    ∃ i, tol < |(calcHoloField (superpose E1 E2)).getD i 0
        - ((calcHoloField E1).getD i 0 + (calcHoloField E2).getD i 0 - 1)| := by
  obtain ⟨i, hi1, hi2, hgt⟩ := h
  refine ⟨i, ?_⟩
  have hlen : i < (superpose E1 E2).length := by
    simp only [superpose, List.length_zipWith]
    exact lt_min hi1 hi2
  rw [calcHoloField_getD _ i hlen, calcHoloField_getD _ i hi1,
      calcHoloField_getD _ i hi2, superpose_getD E1 E2 i hi1 hi2,
      holoPoint_addF3]
  exact hgt

/-- Concrete instance of C7: two strong single-sample fields do not
superpose linearly at tolerance `1/100`. -/
theorem wavelength_scale_nonlinear_witness :
    ∃ i, (1 : ℚ) / 100
        < |(calcHoloField (superpose [((1/2, 0), (0, 0), (0, 0))]
              [((1/2, 0), (0, 0), (0, 0))])).getD i 0
            - ((calcHoloField [((1/2, 0), (0, 0), (0, 0))]).getD i 0
                + (calcHoloField [((1/2, 0), (0, 0), (0, 0))]).getD i 0 - 1)| :=
  wavelength_scale_nonlinear
    [((1/2, 0), (0, 0), (0, 0))] [((1/2, 0), (0, 0), (0, 0))] (1 / 100)
    ⟨0, by decide, by decide, by norm_num [crossF3, crossRe, F0, lt_abs]⟩

/-! ## Claim theorems: incompatibility and feasibility guards -/

/-- In a composite whose members up to an incompatible one are all
sphere-family, the incompatibility scan reports that member's type name. -/
theorem firstIncompatible_append (pre post : List BasicScatterer)
    (el : BasicScatterer) (hpre : ∀ b ∈ pre, sphereFamily b = true)
    (hel : sphereFamily el = false) :
    firstIncompatible (.spheres (pre ++ el :: post))
      = some (basicTypeName el) := by
  induction pre with
  | nil => simp [firstIncompatible, hel]
  | cons b pre ih =>
      have hb : sphereFamily b = true := hpre b (List.mem_cons_self b pre)
      have ih2 := ih (fun b hb2 => hpre b (List.mem_cons_of_mem _ hb2))
      simpa [firstIncompatible, hb] using ih2

/-- Claim C3: submitting an Ellipsoid to the Mie theory — alone or nested
in a `Spheres` composite whose other leading members are sphere-family —
makes `calc_field`, `calc_intensity` and `calc_holo` all fail with
`TheoryNotCompatibleError` naming the Ellipsoid type, with no partial
result returned. -/
theorem mie_rejects_ellipsoid (ev : BasicScatterer → Pos → F3)
    (ceiling : ℚ) (o : Optics) (positions : List Pos)
    (nE : CQ) (rE cE : Pos) (pre post : List BasicScatterer)
    (hpre : ∀ b ∈ pre, sphereFamily b = true) :
    (calcField ev ceiling (.basic (.ellipsoid nE rE cE)) o positions
        = Except.error (.theoryNotCompatibleError
            ("Mie scattering theory cannot handle scatterers of type "
              ++ "Ellipsoid")))
    ∧ (calcIntensity ev ceiling (.basic (.ellipsoid nE rE cE)) o positions
        = Except.error (.theoryNotCompatibleError
            ("Mie scattering theory cannot handle scatterers of type "
              ++ "Ellipsoid")))
    ∧ (calcHolo ev ceiling (.basic (.ellipsoid nE rE cE)) o positions
        = Except.error (.theoryNotCompatibleError
            ("Mie scattering theory cannot handle scatterers of type "
              ++ "Ellipsoid")))
    ∧ (calcField ev ceiling
          (.spheres (pre ++ BasicScatterer.ellipsoid nE rE cE :: post))
          o positions
        = Except.error (.theoryNotCompatibleError
            ("Mie scattering theory cannot handle scatterers of type "
              ++ "Ellipsoid")))
    ∧ (calcIntensity ev ceiling
          (.spheres (pre ++ BasicScatterer.ellipsoid nE rE cE :: post))
          o positions
        = Except.error (.theoryNotCompatibleError
            ("Mie scattering theory cannot handle scatterers of type "
              ++ "Ellipsoid")))
    ∧ (calcHolo ev ceiling
          (.spheres (pre ++ BasicScatterer.ellipsoid nE rE cE :: post))
          o positions
        = Except.error (.theoryNotCompatibleError
            ("Mie scattering theory cannot handle scatterers of type "
              ++ "Ellipsoid"))) := by
  have hdirect :
      firstIncompatible (.basic (.ellipsoid nE rE cE)) = some "Ellipsoid" := by
    simp [firstIncompatible, sphereFamily, basicTypeName]
  have hnested :
      firstIncompatible
          (.spheres (pre ++ BasicScatterer.ellipsoid nE rE cE :: post))
        = some "Ellipsoid" :=
    firstIncompatible_append pre post _ hpre rfl
  refine ⟨?_, ?_, ?_, ?_, ?_, ?_⟩ <;>
    simp [calcField, calcIntensity, calcHolo, hdirect, hnested, Except.map]

/-- Concrete instance of C3: an Ellipsoid rejected directly and nested
after a compatible sphere, for all three operations. -/
theorem mie_rejects_ellipsoid_witness :
    (calcField (fun _ _ => F0) 1000 (.basic (.ellipsoid (159/100, 0) (1, 2, 3) (8, 5, 5)))
          ⟨66/100, 133/100, (1, 0)⟩ [(0, 0, 0)]
        = Except.error (.theoryNotCompatibleError
            ("Mie scattering theory cannot handle scatterers of type "
              ++ "Ellipsoid")))
    ∧ (calcIntensity (fun _ _ => F0) 1000 (.basic (.ellipsoid (159/100, 0) (1, 2, 3) (8, 5, 5)))
          ⟨66/100, 133/100, (1, 0)⟩ [(0, 0, 0)]
        = Except.error (.theoryNotCompatibleError
            ("Mie scattering theory cannot handle scatterers of type "
              ++ "Ellipsoid")))
    ∧ (calcHolo (fun _ _ => F0) 1000 (.basic (.ellipsoid (159/100, 0) (1, 2, 3) (8, 5, 5)))
          ⟨66/100, 133/100, (1, 0)⟩ [(0, 0, 0)]
        = Except.error (.theoryNotCompatibleError
            ("Mie scattering theory cannot handle scatterers of type "
              ++ "Ellipsoid")))
    ∧ (calcField (fun _ _ => F0) 1000
          (.spheres ([BasicScatterer.sphere (159/100, 0) (1/2) (1, 1, 1)]
            ++ BasicScatterer.ellipsoid (159/100, 0) (1, 2, 3) (8, 5, 5) :: []))
          ⟨66/100, 133/100, (1, 0)⟩ [(0, 0, 0)]
        = Except.error (.theoryNotCompatibleError
            ("Mie scattering theory cannot handle scatterers of type "
              ++ "Ellipsoid")))
    ∧ (calcIntensity (fun _ _ => F0) 1000
          (.spheres ([BasicScatterer.sphere (159/100, 0) (1/2) (1, 1, 1)]
            ++ BasicScatterer.ellipsoid (159/100, 0) (1, 2, 3) (8, 5, 5) :: []))
          ⟨66/100, 133/100, (1, 0)⟩ [(0, 0, 0)]
        = Except.error (.theoryNotCompatibleError
            ("Mie scattering theory cannot handle scatterers of type "
              ++ "Ellipsoid")))
    ∧ (calcHolo (fun _ _ => F0) 1000
          (.spheres ([BasicScatterer.sphere (159/100, 0) (1/2) (1, 1, 1)]
            ++ BasicScatterer.ellipsoid (159/100, 0) (1, 2, 3) (8, 5, 5) :: []))
          ⟨66/100, 133/100, (1, 0)⟩ [(0, 0, 0)]
        = Except.error (.theoryNotCompatibleError
            ("Mie scattering theory cannot handle scatterers of type "
              ++ "Ellipsoid"))) :=
  mie_rejects_ellipsoid (fun _ _ => F0) 1000 ⟨66/100, 133/100, (1, 0)⟩
    [(0, 0, 0)] (159/100, 0) (1, 2, 3) (8, 5, 5)
    [BasicScatterer.sphere (159/100, 0) (1/2) (1, 1, 1)] []
    (by decide)

/-- Claim C4: a sphere whose radius exceeds the configured feasibility
ceiling times the wavelength (e.g. radius 1 with wavelength 0.66 and any
ceiling below 1/0.66) makes `calc_holo` fail with `UnrealizableScatterer`
before any field evaluation, instead of returning a result. -/
theorem mie_rejects_oversized (ev : BasicScatterer → Pos → F3)
    (ceiling r : ℚ) (o : Optics) (positions : List Pos) (n : CQ) (c : Pos)
    (hratio : ceiling * o.wavelen < r) :
    calcHolo ev ceiling (.basic (.sphere n r c)) o positions
      = Except.error (.unrealizableScatterer
          "scatterer size is beyond the feasible computation envelope") := by
  have hincomp : firstIncompatible (.basic (.sphere n r c)) = none := by
    simp [firstIncompatible, sphereFamily]
  have hover : (members (Scatterer.basic (.sphere n r c))).any
      (oversized ceiling o) = true := by
    simp [members, oversized, outerRadius, hratio]
  simp [calcHolo, calcField, hincomp, hover, Except.map]

/-- Concrete instance of C4: radius 1, wavelength 0.66, ceiling 1. -/
theorem mie_rejects_oversized_witness :
    calcHolo (fun _ _ => F0) 1 (.basic (.sphere (159/100, 0) 1 (5, 5, 5)))
        ⟨66/100, 133/100, (1, 0)⟩ [(0, 0, 0)]
      = Except.error (.unrealizableScatterer
          "scatterer size is beyond the feasible computation envelope") :=
  mie_rejects_oversized (fun _ _ => F0) 1 1 ⟨66/100, 133/100, (1, 0)⟩
    [(0, 0, 0)] (159/100, 0) (5, 5, 5) (by norm_num)

/-! ## Claim theorems: schema shape handling -/

/-- Claim C5: for every scatterer and raster schema, the raster hologram
ravelled equals the hologram of the flattened schema, and reshaping the
flat result back to the raster shape recovers the raster hologram
(bit-identical sample ordering). -/
theorem raster_flat_roundtrip (ev : BasicScatterer → Pos → F3)
    (s : Scatterer) (grid : List (List Pos)) :
    (calcHoloGrid ev s grid).flatten = calcHoloFlat ev s grid.flatten
    ∧ reshapeLike grid (calcHoloFlat ev s grid.flatten)
        = calcHoloGrid ev s grid := by
  constructor
  · induction grid with
    | nil => simp [calcHoloGrid, calcHoloFlat]
    | cons row rows ih =>
        simp [calcHoloGrid, calcHoloFlat, List.map_append, ih]
  · induction grid with
    | nil => simp [reshapeLike, calcHoloGrid]
    | cons row rows ih =>
        simp only [List.flatten_cons, calcHoloFlat, List.map_append,
          reshapeLike, calcHoloGrid, List.map_cons]
        rw [List.take_left' (by simp), List.drop_left' (by simp)]
        simpa [calcHoloFlat, calcHoloGrid] using ih

/-- Claim C6: computing the hologram commutes with subimaging: cropping the
raster hologram at given pixel offsets equals computing the hologram on the
cropped schema. -/
theorem subimage_commutes (ev : BasicScatterer → Pos → F3) (s : Scatterer)
    (grid : List (List Pos)) (rowOff nRows colOff nCols : ℕ) :
    subimageGrid rowOff nRows colOff nCols (calcHoloGrid ev s grid)
      = calcHoloGrid ev s (subimageGrid rowOff nRows colOff nCols grid) := by
  simp only [subimageGrid, calcHoloGrid, ← List.map_take, ← List.map_drop,
    List.map_map]
  apply List.map_congr_left
  intro row _
  simp [Function.comp, ← List.map_take, ← List.map_drop]

/-! ## Claim theorems: layered-sphere equivalence -/

/-- If one layer-crossing step fixes the homogeneous value, the whole
recursion over uniform-index layers lands on the homogeneous value at the
outermost boundary. -/
theorem layerGo_collapse (step : K → K → K → K → K → K) (D1 : K → K) (m : K)
    (hstep : ∀ xp x, step m xp m x (D1 (m * xp)) = D1 (m * x)) :
    ∀ (xs : List K) (xp : K),
      layerGo step m xp (D1 (m * xp)) (xs.map (fun x => (m, x)))
        = D1 (m * xs.getLastD xp) := by
  intro xs
  induction xs with
  | nil => intro xp; simp [layerGo]
  | cons x rest ih =>
      intro xp
      simp only [List.map_cons, layerGo, List.getLastD_cons]
      rw [hstep xp x]
      exact ih x

/-- Crossing a boundary between two layers of the same index leaves the
electric logarithmic derivative at its homogeneous value. -/
theorem haStep_uniform (D1 D3 : K → K) (Q : K → K → K) (m : K) (hm : m ≠ 0)
    (hD : ∀ x, D1 (m * x) ≠ D3 (m * x)) (xp x : K) :
    haStep D1 D3 Q m xp m x (D1 (m * xp)) = D1 (m * x) := by
  have hg1 : m * D1 (m * xp) - m * D1 (m * xp) = 0 := sub_self _
  have hg2 : m * D1 (m * xp) - m * D3 (m * xp) ≠ 0 := by
    rw [← mul_sub]
    exact mul_ne_zero hm (sub_ne_zero.mpr (hD xp))
  unfold haStep
  rw [hg1]
  simp only [mul_zero, zero_mul, sub_zero]
  exact mul_div_cancel_left₀ _ hg2

/-- Crossing a boundary between two layers of the same index leaves the
magnetic logarithmic derivative at its homogeneous value. -/
theorem hbStep_uniform (D1 D3 : K → K) (Q : K → K → K) (m : K) (hm : m ≠ 0)
    (hD : ∀ x, D1 (m * x) ≠ D3 (m * x)) (xp x : K) :
    hbStep D1 D3 Q m xp m x (D1 (m * xp)) = D1 (m * x) := by
  have hg1 : m * D1 (m * xp) - m * D1 (m * xp) = 0 := sub_self _
  have hg2 : m * D1 (m * xp) - m * D3 (m * xp) ≠ 0 := by
    rw [← mul_sub]
    exact mul_ne_zero hm (sub_ne_zero.mpr (hD xp))
  unfold hbStep
  rw [hg1]
  simp only [mul_zero, zero_mul, sub_zero]
  exact mul_div_cancel_left₀ _ hg2

/-- `Ha` of a uniform-index layered sphere equals the homogeneous value at
the outer boundary, for any partition. -/
theorem haLayered_uniform (D1 D3 : K → K) (Q : K → K → K) (m : K)
    (hm : m ≠ 0) (hD : ∀ x, D1 (m * x) ≠ D3 (m * x)) (xs : List K)
    (hne : xs ≠ []) :
    haLayered D1 D3 Q (xs.map (fun x => (m, x))) = D1 (m * xs.getLastD 0) := by
  cases xs with
  | nil => exact absurd rfl hne
  | cons x rest =>
      simp only [List.map_cons, haLayered, List.getLastD_cons]
      exact layerGo_collapse (haStep D1 D3 Q) D1 m
        (haStep_uniform D1 D3 Q m hm hD) rest x

/-- `Hb` of a uniform-index layered sphere equals the homogeneous value at
the outer boundary, for any partition. -/
theorem hbLayered_uniform (D1 D3 : K → K) (Q : K → K → K) (m : K)
    (hm : m ≠ 0) (hD : ∀ x, D1 (m * x) ≠ D3 (m * x)) (xs : List K)
    (hne : xs ≠ []) :
    hbLayered D1 D3 Q (xs.map (fun x => (m, x))) = D1 (m * xs.getLastD 0) := by
  cases xs with
  | nil => exact absurd rfl hne
  | cons x rest =>
      simp only [List.map_cons, hbLayered, List.getLastD_cons]
      exact layerGo_collapse (hbStep D1 D3 Q) D1 m
        (hbStep_uniform D1 D3 Q m hm hD) rest x

omit [Field K] in
/-- The outermost layer of a uniform-index partition carries the common
index and the last boundary. -/
theorem outerLayer_uniform (m : K) :
    ∀ (xs : List K) (d : K),
      (xs.map (fun x => (m, x))).getLastD (m, d) = (m, xs.getLastD d) := by
  intro xs
  induction xs with
  | nil => intro d; simp
  | cons x rest ih =>
      intro d
      simp only [List.map_cons, List.getLastD_cons]
      exact ih x

/-- Claim C1: a layered sphere whose layers all share one index `m`, under
any partition of the radii (boundaries `xs`), has the same (an, bn) Mie
coefficients as the homogeneous sphere of the same outer radius and index,
and hence the same field/hologram on the same schema and optics.  The
nondegeneracy hypotheses (`m ≠ 0` and `D1 ≠ D3`, the Wronskian condition
separating the regular from the outgoing Riccati–Bessel function) hold for
physical optics. -/
theorem layered_uniform_equals_sphere (D1 D3 psi psiPrev xi xiPrev : K → K)
    (Q : K → K → K) (nOrd : K) (emit : K → K → K → K) (m : K)
    (xs ps : List K) (hne : xs ≠ []) (hm : m ≠ 0)
    (hD : ∀ x, D1 (m * x) ≠ D3 (m * x)) :
    anLayered D1 D3 psi psiPrev xi xiPrev Q nOrd (xs.map (fun x => (m, x)))
        = anSphere D1 psi psiPrev xi xiPrev nOrd m (xs.getLastD 0)
    ∧ bnLayered D1 D3 psi psiPrev xi xiPrev Q nOrd (xs.map (fun x => (m, x)))
        = bnSphere D1 psi psiPrev xi xiPrev nOrd m (xs.getLastD 0)
    ∧ calcHoloLayeredSphere D1 D3 psi psiPrev xi xiPrev Q nOrd emit
          (xs.map (fun x => (m, x))) ps
        = calcHoloHomogeneousSphere D1 psi psiPrev xi xiPrev nOrd emit m
            (xs.getLastD 0) ps := by
  have hout : outerLayer (xs.map (fun x => (m, x))) = (m, xs.getLastD 0) := by
    cases xs with
    | nil => exact absurd rfl hne
    | cons x rest =>
        simp only [outerLayer, List.map_cons, List.getLastD_cons]
        exact outerLayer_uniform m rest x
  have han :
      anLayered D1 D3 psi psiPrev xi xiPrev Q nOrd (xs.map (fun x => (m, x)))
        = anSphere D1 psi psiPrev xi xiPrev nOrd m (xs.getLastD 0) := by
    unfold anLayered anSphere
    rw [hout, haLayered_uniform D1 D3 Q m hm hD xs hne]
  have hbn :
      bnLayered D1 D3 psi psiPrev xi xiPrev Q nOrd (xs.map (fun x => (m, x)))
        = bnSphere D1 psi psiPrev xi xiPrev nOrd m (xs.getLastD 0) := by
    unfold bnLayered bnSphere
    rw [hout, hbLayered_uniform D1 D3 Q m hm hD xs hne]
  refine ⟨han, hbn, ?_⟩
  unfold calcHoloLayeredSphere calcHoloHomogeneousSphere
  rw [han, hbn]

/-- Concrete instance of C1: index 3/2, boundaries 1 and 2 (outer radius
2), sample points 0 and 1. -/
theorem layered_uniform_equals_sphere_witness :
    anLayered (fun t => t) (fun t => t + 1) (fun t => t + 2) (fun t => t + 3)
        (fun t => t + 4) (fun t => t + 5) (fun a b => a + b) 1
        ([(1 : ℚ), 2].map (fun x => ((3 : ℚ)/2, x)))
      = anSphere (fun t => t) (fun t => t + 2) (fun t => t + 3)
          (fun t => t + 4) (fun t => t + 5) 1 ((3 : ℚ)/2)
          ([(1 : ℚ), 2].getLastD 0)
    ∧ bnLayered (fun t => t) (fun t => t + 1) (fun t => t + 2)
        (fun t => t + 3) (fun t => t + 4) (fun t => t + 5) (fun a b => a + b) 1
        ([(1 : ℚ), 2].map (fun x => ((3 : ℚ)/2, x)))
      = bnSphere (fun t => t) (fun t => t + 2) (fun t => t + 3)
          (fun t => t + 4) (fun t => t + 5) 1 ((3 : ℚ)/2)
          ([(1 : ℚ), 2].getLastD 0)
    ∧ calcHoloLayeredSphere (fun t => t) (fun t => t + 1) (fun t => t + 2)
          (fun t => t + 3) (fun t => t + 4) (fun t => t + 5)
          (fun a b => a + b) 1 (fun a b p => a + b * p)
          ([(1 : ℚ), 2].map (fun x => ((3 : ℚ)/2, x))) [0, 1]
        = calcHoloHomogeneousSphere (fun t => t) (fun t => t + 2)
            (fun t => t + 3) (fun t => t + 4) (fun t => t + 5) 1
            (fun a b p => a + b * p) ((3 : ℚ)/2) ([(1 : ℚ), 2].getLastD 0)
            [0, 1] :=
  layered_uniform_equals_sphere (fun t => t) (fun t => t + 1) (fun t => t + 2)
    (fun t => t + 3) (fun t => t + 4) (fun t => t + 5) (fun a b => a + b) 1
    (fun a b p => a + b * p) ((3 : ℚ)/2) [1, 2] [0, 1]
    (List.cons_ne_nil _ _) (by norm_num) (by intro x h; simp at h)

end HoloPy
